import Mathlib

/-!
Shallow embedding of the `DoggoTranslator` class (doggo-translator-ts).

The translator performs JavaScript-regex-driven text substitution:
whole-word replacement with `new RegExp('\\b(' + term + ')\\b', 'gi')`
and suffix replacement with `new RegExp('(' + term + ')\\b', 'gi')`,
where `term` is first passed through `escapeRegex`, so the compiled
pattern matches the literal term case-insensitively.  We embed this as a
direct left-to-right scan over the character list: at each position the
literal term is matched case-insensitively and the JS `\b` word-boundary
conditions are checked, which is exactly what the regex engine does for a
fully escaped (hence literal) pattern.  Strings are modelled through
their character lists; case functions are the ASCII ones, which agree
with JavaScript `toUpperCase`/`toLowerCase` on the ASCII inputs the
library manipulates.
-/

namespace DoggoTranslator

/-- JS `\w` (word character, as used by the `\b` boundary assertion):
`[A-Za-z0-9_]`. -/
def isWordChar (c : Char) : Bool :=
  c.isAlpha || c.isDigit || c == '_'

/-- Wordness of the first character of a list (`false` at end of input),
used for `\b` boundary tests. -/
def headIsWord : List Char → Bool
  | [] => false
  | c :: _ => isWordChar c

/-- Wordness of the last character of a list, defaulting to `dflt` for the
empty list (the character just before the current position). -/
def lastIsWord (dflt : Bool) : List Char → Bool
  | [] => dflt
  | [c] => isWordChar c
  | _ :: c :: cs => lastIsWord dflt (c :: cs)

/-- Case-insensitive test that `pat` begins `s`, the way the JS `i` flag
canonicalises characters (ASCII folding). -/
def ciStarts : List Char → List Char → Bool
  | [], _ => true
  | _ :: _, [] => false
  | p :: ps, c :: cs => (p.toLower == c.toLower) && ciStarts ps cs

/-- One pass of `String.prototype.replace` with a global regex whose source
is a non-empty literal pattern `p :: ps` bracketed by `\b` on the right and,
when `requireLeft` is set, also on the left.  `prev` records whether the
character just before the current position is a word character; `adjust`
is the match-to-replacement callback.  `fuel` only bounds the recursion:
the top-level call passes the input length, which every step strictly
consumes, so the `0` case is never reached on those calls. -/
def replLoopNE (requireLeft : Bool) (p : Char) (ps : List Char)
    (adjust : List Char → List Char) : Nat → Bool → List Char → List Char
  | 0, _, rest => rest
  | _ + 1, _, [] => []
  | fuel + 1, prev, c :: cs =>
    let matched := (c :: cs).take (ps.length + 1)
    let after := cs.drop ps.length
    if (!requireLeft || (prev != isWordChar c)) && ciStarts (p :: ps) (c :: cs)
        && (lastIsWord prev matched != headIsWord after) then
      adjust matched ++ replLoopNE requireLeft p ps adjust fuel (lastIsWord prev matched) after
    else
      c :: replLoopNE requireLeft p ps adjust fuel (isWordChar c) cs

/-- `String.prototype.replace` with a global regex whose literal pattern is
empty (`\b()\b` or `()\b`): a zero-width match occurs exactly at word
boundaries, and the engine then advances one character. -/
def replLoopEmpty (adjust : List Char → List Char) : Bool → List Char → List Char
  | prev, [] => if prev then adjust [] else []
  | prev, c :: cs =>
    (if prev != isWordChar c then adjust [] else []) ++ c :: replLoopEmpty adjust (isWordChar c) cs

/-- `input.replace(new RegExp((requireLeft ? '\\b(' : '(') + pat + ')\\b', 'gi'), adjust)`
for an escaped (hence literal) pattern `pat`. -/
def jsReplace (requireLeft : Bool) (pat : List Char) (adjust : List Char → List Char)
    (s : List Char) : List Char :=
  match pat with
  | [] => replLoopEmpty adjust false s
  | p :: ps => replLoopNE requireLeft p ps adjust s.length false s

/-- `capitalizeFirstCharacter` on character lists:
`target.charAt(0).toUpperCase() + target.slice(1)`. -/
def capFirst : List Char → List Char
  | [] => []
  | c :: cs => c.toUpper :: cs

/-- `capitalizeFirstCharacter(target)`. -/
def capitalizeFirstCharacter (target : String) : String :=
  ⟨capFirst target.data⟩

/-- The match callback of `translateWholeWord`: upper-case match gives the
upper-cased replacement, capitalised match gives the capitalised
replacement, anything else gives the replacement verbatim. -/
def wholeWordReplacement (matched repl : List Char) : List Char :=
  if matched = matched.map Char.toUpper then repl.map Char.toUpper
  else if matched = capFirst matched then capFirst repl
  else repl

/-- The match callback of `transformSuffixes`: only the all-upper-case
condition is tested; any other match yields the replacement verbatim. -/
def suffixReplacement (matched repl : List Char) : List Char :=
  if matched = matched.map Char.toUpper then repl.map Char.toUpper
  else repl

/-- `translateWholeWord(input, regex, replace)`: global case-insensitive
replacement of the literal term with word boundaries on both sides. -/
def translateWholeWord (input find repl : String) : String :=
  ⟨jsReplace true find.data (fun m => wholeWordReplacement m repl.data) input.data⟩

/-- `transformSuffixes(input, regex, replace)`: global case-insensitive
replacement of the literal term with a word boundary only on the right. -/
def transformSuffixes (input find repl : String) : String :=
  ⟨jsReplace false find.data (fun m => suffixReplacement m repl.data) input.data⟩

/-- `replaceWholeWords(words, reverse, sourceSentence)`: each key/value
pair is applied in table order over the evolving sentence (the source's
`for (const key in words)` loop); `reverse` swaps the roles of key and
value. -/
def replaceWholeWords (words : List (String × String)) (reverse : Bool)
    (sourceSentence : String) : String :=
  match words with
  | [] => sourceSentence
  | kv :: rest =>
    replaceWholeWords rest reverse
      (if reverse then translateWholeWord sourceSentence kv.2 kv.1
       else translateWholeWord sourceSentence kv.1 kv.2)

/-- `replaceSuffixes(suffixes, reverse, sourceSentence)`. -/
def replaceSuffixes (suffixes : List (String × String)) (reverse : Bool)
    (sourceSentence : String) : String :=
  match suffixes with
  | [] => sourceSentence
  | kv :: rest =>
    replaceSuffixes rest reverse
      (if reverse then transformSuffixes sourceSentence kv.2 kv.1
       else transformSuffixes sourceSentence kv.1 kv.2)

/-- `TranslationMapInterface`: `words` plus an optional `suffixes` table.
Object key iteration order is modelled by the list order. -/
structure TranslationMapInterface where
  words : List (String × String)
  suffixes : Option (List (String × String))
deriving DecidableEq, Repr

/-- The mutable state of a `DoggoTranslator` instance: the stored
`languageToken` and the map currently held by its `LocaleLoaderService`. -/
structure TranslatorState where
  languageToken : String
  activeMap : TranslationMapInterface
deriving DecidableEq, Repr

/-- `readonly defaultResponse = 'Bork'`. -/
def defaultResponse : String := "Bork"

/-- `translateSentence(sourceSentence, reverse)`: empty input
short-circuits to `defaultResponse`; otherwise the whole-word pass runs
over the active map's `words`, and the suffix pass runs over its output
when a `suffixes` table is present. -/
def translateSentence (st : TranslatorState) (sourceSentence : String)
    (reverse : Bool) : String :=
  if sourceSentence = "" then defaultResponse
  else
    match st.activeMap.suffixes with
    | some suffixes =>
      replaceSuffixes suffixes reverse
        (replaceWholeWords st.activeMap.words reverse sourceSentence)
    | none => replaceWholeWords st.activeMap.words reverse sourceSentence

/-- JS `\s` (the whitespace class used by `escapeRegex`): space, `\t`,
`\n`, vertical tab, form feed, `\r`, and the Unicode space separators
recognised by ECMAScript. -/
def isJsWhitespace (c : Char) : Bool :=
  c == ' ' || c == '\t' || c == '\n' || c == '\x0b' || c == '\x0c' || c == '\r' ||
  c.val == 0xa0 || c.val == 0x1680 || (0x2000 ≤ c.val && c.val ≤ 0x200a) ||
  c.val == 0x2028 || c.val == 0x2029 || c.val == 0x202f || c.val == 0x205f ||
  c.val == 0x3000 || c.val == 0xfeff

/-- The character class of `escapeRegex`: `[-[\]{}()*+?.,\\^$|#\s]`. -/
def isRegexSpecialChar (c : Char) : Bool :=
  c == '-' || c == '[' || c == ']' || c == '\x7b' || c == '\x7d' || c == '(' ||
  c == ')' || c == '*' || c == '+' || c == '?' || c == '.' || c == ',' ||
  c == '\\' || c == '^' || c == '$' || c == '|' || c == '#' || isJsWhitespace c

/-- `escapeRegex(target)`:
`target.replace(/[-[\]{}()*+?.,\\^$|#\s]/g, '\\$&')` — a backslash is
inserted before every character of the class and nothing else changes. -/
def escapeRegex (target : String) : String :=
  ⟨(target.data.map (fun c => if isRegexSpecialChar c then ['\\', c] else [c])).flatten⟩

/-- `LANGUAGE_TOKENS_ENUM.english`, the `defaultLanguage` of the class. -/
def defaultLanguage : String := "english"

/-- Modelled from the spec: `LANGUAGE_TOKENS_ENUM.userDefined`, the
sentinel token meaning "user-defined custom map, not drawn from the
registry" (the enum source is not part of the given sources; the spec
names the sentinel in §3). -/
def userDefinedToken : String := "user-defined"

/-- Modelled from the spec: the observable calls a `DoggoTranslator` makes
on its collaborators (`ErrorService.logError`, and the Map Loader's
`loadLibraryTranslations` / `setTranslationsMap` of §6). -/
inductive Effect where
  | logError (msg : String)
  | loadLibraryTranslations (token : String)
  | setTranslationsMap (m : TranslationMapInterface)
deriving DecidableEq, Repr

/-- Modelled from the spec: `TokensService.languageAvailable` is a pure
catalog-membership test (§4.2, §6); the catalog itself is a static list of
tokens supplied as a parameter because `TokensService`'s source is not in
the given sources. -/
def languageAvailable (catalog : List String) (token : String) : Bool :=
  catalog.contains token

/-- `setLanguage(languageToken)`.  The Map Loader is modelled from the
spec as a total table `library : token → map` (§6: `loadLibraryTranslations`
populates the active map from a bundled resource keyed by token); the
returned list is the trace of collaborator calls, in order. -/
def setLanguage (catalog : List String) (library : String → TranslationMapInterface)
    (_st : TranslatorState) (languageToken : String) :
    TranslatorState × List Effect :=
  if !(languageAvailable catalog languageToken) then
    ({ languageToken := defaultLanguage, activeMap := library languageToken },
     [Effect.logError ("The language was not found, defaulting to " ++ defaultLanguage),
      Effect.loadLibraryTranslations languageToken])
  else
    ({ languageToken := languageToken, activeMap := library languageToken },
     [Effect.loadLibraryTranslations languageToken])

/-- `DoggoTranslatorConfig`: each field may be absent.  A missing
`languageToken` and the JS-falsy empty string are both falsy in the
source's `!config.languageToken` test, which `truthyString` captures. -/
structure DoggoTranslatorConfig where
  languageToken : Option String
  userTranslationsMap : Option TranslationMapInterface
deriving DecidableEq, Repr

/-- JS truthiness of an optional string: absent and `''` are falsy. -/
def truthyString : Option String → Bool
  | none => false
  | some s => !(s == "")

/-- The message passed to `ErrorService.throw` by `configValidation`. -/
def invalidConfigMsg : String :=
  "Invalid Config Provided. You must provide at least one of the following: \n\t`languageToken` or `userTranslationsMap`"

/-- `configValidation(config)`: throws (modelled as `Except.error`) when
the config is missing, or when neither `languageToken` nor
`userTranslationsMap` is truthy. -/
def configValidation (config : Option DoggoTranslatorConfig) : Except String Unit :=
  match config with
  | none => Except.error invalidConfigMsg
  | some c =>
    if !(truthyString c.languageToken) && c.userTranslationsMap.isNone then
      Except.error invalidConfigMsg
    else
      Except.ok ()

/-- `setUpTranslator(config)`: without a custom map, delegate to
`setLanguage(config.languageToken)` (the unchecked `as` cast of an absent
token is modelled as the empty string); with a custom map, call
`setLanguage(userDefined)` and then `setTranslationsMap` with the custom
map. -/
def setUpTranslator (catalog : List String) (library : String → TranslationMapInterface)
    (st : TranslatorState) (config : DoggoTranslatorConfig) :
    TranslatorState × List Effect :=
  match config.userTranslationsMap with
  | none => setLanguage catalog library st (config.languageToken.getD "")
  | some m =>
    let r := setLanguage catalog library st userDefinedToken
    ({ r.1 with activeMap := m }, r.2 ++ [Effect.setTranslationsMap m])

/-- The `DoggoTranslator` constructor: `configValidation` then
`setUpTranslator`, starting from an uninitialised state (the class fields
before assignment).  A thrown configuration error is the `Except.error`
branch. -/
def mkDoggoTranslator (catalog : List String) (library : String → TranslationMapInterface)
    (config : Option DoggoTranslatorConfig) :
    Except String (TranslatorState × List Effect) :=
  match configValidation config with
  | Except.error e => Except.error e
  | Except.ok _ =>
    match config with
    | none => Except.error invalidConfigMsg
    | some c => Except.ok (setUpTranslator catalog library ⟨"", ⟨[], none⟩⟩ c)

/-- The collaborator-call trace of a successful construction (empty when
construction fails). -/
def constructionEffects (catalog : List String)
    (library : String → TranslationMapInterface)
    (config : Option DoggoTranslatorConfig) : List Effect :=
  match mkDoggoTranslator catalog library config with
  | Except.ok r => r.2
  | Except.error _ => []

/-- Whether the regex `\b(p :: ps)\b` (or `(p :: ps)\b` when
`requireLeft = false`) has at least one match in `rest`, given that the
character before `rest` has wordness `prev`.  Mirrors the per-position
test of `replLoopNE`. -/
def existsMatchNE (requireLeft : Bool) (p : Char) (ps : List Char) :
    Bool → List Char → Bool
  | _, [] => false
  | prev, c :: cs =>
    ((!requireLeft || (prev != isWordChar c)) && ciStarts (p :: ps) (c :: cs)
      && (lastIsWord prev ((c :: cs).take (ps.length + 1)) != headIsWord (cs.drop ps.length)))
    || existsMatchNE requireLeft p ps (isWordChar c) cs

/-- Whether the empty literal pattern has a (zero-width) match in `rest`:
there is a word boundary somewhere. -/
def existsMatchEmpty : Bool → List Char → Bool
  | prev, [] => prev
  | prev, c :: cs => (prev != isWordChar c) || existsMatchEmpty (isWordChar c) cs

/-- Whether the compiled pattern for the literal term `pat` (with a right
word boundary, and a left one when `requireLeft`) matches anywhere in
`s`. -/
def jsHasMatch (requireLeft : Bool) (pat s : List Char) : Bool :=
  match pat with
  | [] => existsMatchEmpty false s
  | p :: ps => existsMatchNE requireLeft p ps false s

/-- Stated from the spec: the config supplies a language token (a present,
non-empty token string). -/
def suppliesLanguageToken : Option DoggoTranslatorConfig → Bool
  | none => false
  | some c => truthyString c.languageToken

/-- Stated from the spec: the config supplies a custom translation map. -/
def suppliesCustomMap : Option DoggoTranslatorConfig → Bool
  | none => false
  | some c => c.userTranslationsMap.isSome

/-- Whether construction completes without a thrown configuration
error. -/
def constructionSucceeds (catalog : List String)
    (library : String → TranslationMapInterface)
    (config : Option DoggoTranslatorConfig) : Bool :=
  match mkDoggoTranslator catalog library config with
  | Except.ok _ => true
  | Except.error _ => false

/-- The non-whitespace characters of the `escapeRegex` class, in the
order the spec lists them: `- [ ] { } ( ) * + ? . , \ ^ $ | #`. -/
def escapeSpecChars : List Char :=
  ['-', '[', ']', '\x7b', '\x7d', '(', ')', '*', '+', '?', '.', ',',
   '\\', '^', '$', '|', '#']

/-- Case-insensitive string comparison ("matches up to case"). -/
def lowerEq (a b : String) : Bool :=
  a.data.map Char.toLower == b.data.map Char.toLower

/-! ## Helper lemmas -/

lemma special_char_iff (c : Char) :
    (isRegexSpecialChar c = true) ↔ (c ∈ escapeSpecChars ∨ isJsWhitespace c = true) := by
  simp [isRegexSpecialChar, escapeSpecChars, or_assoc]

lemma replLoopNE_noMatch (requireLeft : Bool) (p : Char) (ps : List Char)
    (adjust : List Char → List Char) :
    ∀ (fuel : Nat) (prev : Bool) (rest : List Char),
      existsMatchNE requireLeft p ps prev rest = false →
      replLoopNE requireLeft p ps adjust fuel prev rest = rest := by
  intro fuel
  induction fuel with
  | zero => intro prev rest _; rfl
  | succ n ih =>
    intro prev rest h
    cases rest with
    | nil => rfl
    | cons c cs =>
      rw [existsMatchNE] at h
      rw [Bool.or_eq_false_iff] at h
      rw [replLoopNE]
      simp only [h.1, Bool.false_eq_true, if_false]
      rw [ih (isWordChar c) cs h.2]

lemma replLoopEmpty_noMatch (adjust : List Char → List Char) :
    ∀ (prev : Bool) (rest : List Char),
      existsMatchEmpty prev rest = false →
      replLoopEmpty adjust prev rest = rest := by
  intro prev rest
  induction rest generalizing prev with
  | nil => intro h; rw [replLoopEmpty]; rw [existsMatchEmpty] at h; simp [h]
  | cons c cs ih =>
    intro h
    rw [existsMatchEmpty, Bool.or_eq_false_iff] at h
    rw [replLoopEmpty]
    simp only [h.1, Bool.false_eq_true, if_false]
    rw [ih (isWordChar c) h.2]
    rfl

lemma jsReplace_noMatch (requireLeft : Bool) (pat : List Char)
    (adjust : List Char → List Char) (s : List Char)
    (h : jsHasMatch requireLeft pat s = false) :
    jsReplace requireLeft pat adjust s = s := by
  cases pat with
  | nil => exact replLoopEmpty_noMatch adjust false s h
  | cons p ps => exact replLoopNE_noMatch requireLeft p ps adjust s.length false s h

lemma translateWholeWord_noMatch (input find repl : String)
    (h : jsHasMatch true find.data input.data = false) :
    translateWholeWord input find repl = input := by
  cases input with
  | mk data =>
    show String.mk (jsReplace true find.data _ data) = String.mk data
    rw [jsReplace_noMatch true find.data _ data h]

lemma transformSuffixes_noMatch (input find repl : String)
    (h : jsHasMatch false find.data input.data = false) :
    transformSuffixes input find repl = input := by
  cases input with
  | mk data =>
    show String.mk (jsReplace false find.data _ data) = String.mk data
    rw [jsReplace_noMatch false find.data _ data h]

lemma replaceWholeWords_noMatch (words : List (String × String)) (reverse : Bool)
    (s : String)
    (h : ∀ kv ∈ words,
      jsHasMatch true (if reverse then kv.2 else kv.1).data s.data = false) :
    replaceWholeWords words reverse s = s := by
  induction words with
  | nil => rfl
  | cons kv rest ih =>
    have h1 := h kv (List.mem_cons_self kv rest)
    have hstep :
        (if reverse then translateWholeWord s kv.2 kv.1
         else translateWholeWord s kv.1 kv.2) = s := by
      cases reverse with
      | false => exact translateWholeWord_noMatch s kv.1 kv.2 (by simpa using h1)
      | true => exact translateWholeWord_noMatch s kv.2 kv.1 (by simpa using h1)
    rw [replaceWholeWords, hstep]
    exact ih (fun kv hk => h kv (List.mem_cons_of_mem _ hk))

lemma replaceSuffixes_noMatch (suffixes : List (String × String)) (reverse : Bool)
    (s : String)
    (h : ∀ kv ∈ suffixes,
      jsHasMatch false (if reverse then kv.2 else kv.1).data s.data = false) :
    replaceSuffixes suffixes reverse s = s := by
  induction suffixes with
  | nil => rfl
  | cons kv rest ih =>
    have h1 := h kv (List.mem_cons_self kv rest)
    have hstep :
        (if reverse then transformSuffixes s kv.2 kv.1
         else transformSuffixes s kv.1 kv.2) = s := by
      cases reverse with
      | false => exact transformSuffixes_noMatch s kv.1 kv.2 (by simpa using h1)
      | true => exact transformSuffixes_noMatch s kv.2 kv.1 (by simpa using h1)
    rw [replaceSuffixes, hstep]
    exact ih (fun kv hk => h kv (List.mem_cons_of_mem _ hk))

/-! ## Claim theorems -/

/-- C1: every whole-word match is replaced by the upper-cased replacement
when the match equals its own upper-cased form, by the
first-character-capitalised replacement when it equals its own
capitalised form, and verbatim otherwise; in particular
`{words: {bark: "woof"}}` sends `"Bark loudly"` to `"Woof loudly"` and
`{words: {hello: "bark"}}` sends `"HELLO there"` to `"BARK there"`. -/
theorem translateWholeWord_case_restoration :
    (∀ matched repl : List Char, matched = matched.map Char.toUpper →
      wholeWordReplacement matched repl = repl.map Char.toUpper) ∧
    (∀ matched repl : List Char, matched ≠ matched.map Char.toUpper →
      matched = capFirst matched →
      wholeWordReplacement matched repl = capFirst repl) ∧
    (∀ matched repl : List Char, matched ≠ matched.map Char.toUpper →
      matched ≠ capFirst matched →
      wholeWordReplacement matched repl = repl) ∧
    translateSentence ⟨"english", ⟨[("bark", "woof")], none⟩⟩ "Bark loudly" false
      = "Woof loudly" ∧
    translateSentence ⟨"english", ⟨[("hello", "bark")], none⟩⟩ "HELLO there" false
      = "BARK there" := by
  refine ⟨?_, ?_, ?_, by decide, by decide⟩
  · intro matched repl h
    rw [wholeWordReplacement, if_pos h]
  · intro matched repl h1 h2
    rw [wholeWordReplacement, if_neg h1, if_pos h2]
  · intro matched repl h1 h2
    rw [wholeWordReplacement, if_neg h1, if_neg h2]

/-- Witness for C1: the capitalised match `"Ba"` yields the capitalised
replacement. -/
theorem translateWholeWord_case_restoration_witness :
    wholeWordReplacement ['B', 'a'] ['w', 'o'] = ['W', 'o'] :=
  translateWholeWord_case_restoration.2.1 ['B', 'a'] ['w', 'o']
    (by decide) (by decide)

/-- C2: suffix replacement anchors only the right word boundary, so
`{suffixes: {ing: "ong"}}` rewrites `"running"` (a match inside a word)
to `"runnong"`; its case restoration tests only the all-upper-case
condition, so an all-upper match is upper-cased (`"RUNNING"` to
`"RUNNONG"`) while a capitalised match gets the replacement verbatim
(`"runnIng"` to `"runnong"`, not `"runnOng"`). -/
theorem transformSuffixes_right_anchor_only :
    (∀ matched repl : List Char, matched = matched.map Char.toUpper →
      suffixReplacement matched repl = repl.map Char.toUpper) ∧
    (∀ matched repl : List Char, matched ≠ matched.map Char.toUpper →
      suffixReplacement matched repl = repl) ∧
    translateSentence ⟨"english", ⟨[], some [("ing", "ong")]⟩⟩ "running" false
      = "runnong" ∧
    transformSuffixes "RUNNING" "ing" "ong" = "RUNNONG" ∧
    transformSuffixes "runnIng" "ing" "ong" = "runnong" := by
  refine ⟨?_, ?_, by decide, by decide, by decide⟩
  · intro matched repl h
    rw [suffixReplacement, if_pos h]
  · intro matched repl h
    rw [suffixReplacement, if_neg h]

/-- Witness for C2: the capitalised suffix match `"Ing"` is replaced
verbatim. -/
theorem transformSuffixes_right_anchor_only_witness :
    suffixReplacement ['I', 'n', 'g'] ['o', 'n', 'g'] = ['o', 'n', 'g'] :=
  transformSuffixes_right_anchor_only.2.1 ['I', 'n', 'g'] ['o', 'n', 'g']
    (by decide)

/-- C3: for every translator state and every reverse flag, translating
the empty string returns the fixed default response `"Bork"` without
consulting the translation map. -/
theorem translateSentence_empty_default (st : TranslatorState) (reverse : Bool) :
    translateSentence st "" reverse = defaultResponse := by
  rw [translateSentence, if_pos rfl]

/-- C10: pairs are applied sequentially over the evolving sentence, so a
later pair rewrites the output of an earlier one
(`{hello: "bark", bark: "woof"}` sends `"hello"` to `"woof"`), and the
suffix pass applies to the output of the whole-word pass
(`{words: {hello: "barking"}, suffixes: {ing: "ong"}}` sends `"hello"`
to `"barkong"`). -/
theorem sequential_replacement_chains :
    translateSentence ⟨"english", ⟨[("hello", "bark"), ("bark", "woof")], none⟩⟩
      "hello" false = "woof" ∧
    translateSentence ⟨"english", ⟨[("hello", "barking")], some [("ing", "ong")]⟩⟩
      "hello" false = "barkong" := by
  exact ⟨by decide, by decide⟩

/-- C4: `setLanguage` on a token outside the catalog logs the fallback
error, stores the default language token, and still loads the map for
the originally requested token; on a catalogued token it stores that
token and loads that token's map. -/
theorem setLanguage_fallback_loads_requested (catalog : List String)
    (library : String → TranslationMapInterface) (st : TranslatorState)
    (token : String) :
    (languageAvailable catalog token = false →
      setLanguage catalog library st token =
        ({ languageToken := defaultLanguage, activeMap := library token },
         [Effect.logError ("The language was not found, defaulting to " ++ defaultLanguage),
          Effect.loadLibraryTranslations token])) ∧
    (languageAvailable catalog token = true →
      setLanguage catalog library st token =
        ({ languageToken := token, activeMap := library token },
         [Effect.loadLibraryTranslations token])) := by
  constructor <;> intro h <;> rw [setLanguage] <;> simp [h]

/-- Witness for C4: requesting `"doggo"` against a catalog holding only
`"english"` logs the error, stores `"english"`, and loads `"doggo"`. -/
theorem setLanguage_fallback_loads_requested_witness :
    setLanguage ["english"] (fun _ => ⟨[], none⟩) ⟨"english", ⟨[], none⟩⟩ "doggo" =
      ({ languageToken := "english", activeMap := ⟨[], none⟩ },
       [Effect.logError "The language was not found, defaulting to english",
        Effect.loadLibraryTranslations "doggo"]) :=
  (setLanguage_fallback_loads_requested ["english"] (fun _ => ⟨[], none⟩)
    ⟨"english", ⟨[], none⟩⟩ "doggo").1 (by decide)

/-- Counterexample to C5: constructing with a custom map does invoke the
loader's `loadLibraryTranslations` (with the user-defined sentinel
token), contrary to the claim that it is not invoked. -/
theorem custom_map_construction_invokes_loader :
    Effect.loadLibraryTranslations userDefinedToken ∈
      constructionEffects ["english", "user-defined"] (fun _ => ⟨[], none⟩)
        (some ⟨none, some ⟨[("hello", "bark")], none⟩⟩) := by
  decide

/-- C5 amended: construction with a custom map selects the user-defined
sentinel token and installs the custom map as the final active map via
`setTranslationsMap`, but `setUpTranslator` reaches this through
`setLanguage`, which first invokes `loadLibraryTranslations` with the
sentinel token; the custom map then overwrites whatever that load
produced. -/
theorem custom_map_construction_amended (catalog : List String)
    (library : String → TranslationMapInterface) (tok : Option String)
    (m : TranslationMapInterface)
    (h : languageAvailable catalog userDefinedToken = true) :
    mkDoggoTranslator catalog library (some ⟨tok, some m⟩) =
      Except.ok ({ languageToken := userDefinedToken, activeMap := m },
        [Effect.loadLibraryTranslations userDefinedToken,
         Effect.setTranslationsMap m]) := by
  rw [mkDoggoTranslator, configValidation]
  simp [setUpTranslator, setLanguage, h]

/-- Witness for C5's amended theorem at a concrete catalog, loader and
map. -/
theorem custom_map_construction_amended_witness :
    mkDoggoTranslator ["english", "user-defined"] (fun _ => ⟨[], none⟩)
      (some ⟨none, some ⟨[("a", "b")], none⟩⟩) =
      Except.ok ({ languageToken := "user-defined", activeMap := ⟨[("a", "b")], none⟩ },
        [Effect.loadLibraryTranslations "user-defined",
         Effect.setTranslationsMap ⟨[("a", "b")], none⟩]) :=
  custom_map_construction_amended ["english", "user-defined"] (fun _ => ⟨[], none⟩)
    none ⟨[("a", "b")], none⟩ (by decide)

/-- C6: construction succeeds exactly when the config supplies a language
token (a present, non-empty token string) or a custom map; when it fails,
the failure is the thrown configuration error, making the validation
fail-fast. -/
theorem construction_error_iff_no_token_and_no_map (catalog : List String)
    (library : String → TranslationMapInterface)
    (config : Option DoggoTranslatorConfig) :
    constructionSucceeds catalog library config =
      (suppliesLanguageToken config || suppliesCustomMap config) ∧
    (constructionSucceeds catalog library config = false →
      mkDoggoTranslator catalog library config = Except.error invalidConfigMsg) := by
  cases config with
  | none => exact ⟨rfl, fun _ => rfl⟩
  | some c =>
    cases hm : c.userTranslationsMap with
    | some m =>
      refine ⟨?_, ?_⟩ <;>
        simp [constructionSucceeds, mkDoggoTranslator, configValidation,
          suppliesLanguageToken, suppliesCustomMap, hm]
    | none =>
      cases ht : truthyString c.languageToken with
      | false =>
        refine ⟨?_, ?_⟩ <;>
          simp [constructionSucceeds, mkDoggoTranslator, configValidation,
            suppliesLanguageToken, suppliesCustomMap, hm, ht]
      | true =>
        refine ⟨?_, ?_⟩ <;>
          simp [constructionSucceeds, mkDoggoTranslator, configValidation,
            suppliesLanguageToken, suppliesCustomMap, hm, ht]

/-- Witness for C6: the missing config fails with the configuration
error. -/
theorem construction_error_iff_no_token_and_no_map_witness :
    mkDoggoTranslator ["english"] (fun _ => ⟨[], none⟩) none =
      Except.error invalidConfigMsg :=
  (construction_error_iff_no_token_and_no_map ["english"] (fun _ => ⟨[], none⟩)
    none).2 rfl

/-- C7: `translateSentence` is a total function into strings, and a
non-empty sentence in which no entry of the active map (taken in the
direction selected by `reverse`) matches is returned unchanged. -/
theorem translateSentence_total_noMatch (st : TranslatorState) (s : String)
    (reverse : Bool) (hs : s ≠ "")
    (hw : ∀ kv ∈ st.activeMap.words,
      jsHasMatch true (if reverse then kv.2 else kv.1).data s.data = false)
    (hsuf : ∀ kv ∈ st.activeMap.suffixes.getD [],
      jsHasMatch false (if reverse then kv.2 else kv.1).data s.data = false) :
    translateSentence st s reverse = s := by
  rw [translateSentence, if_neg hs]
  cases hopt : st.activeMap.suffixes with
  | none => exact replaceWholeWords_noMatch st.activeMap.words reverse s hw
  | some suf =>
    rw [replaceWholeWords_noMatch st.activeMap.words reverse s hw]
    refine replaceSuffixes_noMatch suf reverse s ?_
    rw [hopt] at hsuf
    exact hsuf

/-- Witness for C7: a sentence with no matching whole word and no
matching suffix is returned unchanged. -/
theorem translateSentence_total_noMatch_witness :
    translateSentence ⟨"english", ⟨[("bark", "woof")], some [("tion", "shun")]⟩⟩
      "hello there!" false = "hello there!" :=
  translateSentence_total_noMatch
    ⟨"english", ⟨[("bark", "woof")], some [("tion", "shun")]⟩⟩
    "hello there!" false (by decide) (by decide) (by decide)

/-- C8: `escapeRegex` backslash-escapes exactly the characters
`- [ ] { } ( ) * + ? . , \ ^ $ | #` and whitespace, leaving every other
character unaltered. -/
theorem escapeRegex_escapes_exactly (s : String) :
    (escapeRegex s).data =
      (s.data.map (fun c =>
        if c ∈ escapeSpecChars ∨ isJsWhitespace c = true then ['\\', c]
        else [c])).flatten := by
  show (s.data.map (fun c =>
      if isRegexSpecialChar c then ['\\', c] else [c])).flatten = _
  have hfun : ∀ c : Char,
      (if isRegexSpecialChar c then ['\\', c] else [c]) =
      (if c ∈ escapeSpecChars ∨ isJsWhitespace c = true then ['\\', c] else [c]) := by
    intro c
    by_cases h : isRegexSpecialChar c = true
    · rw [if_pos h, if_pos ((special_char_iff c).mp h)]
    · rw [if_neg h, if_neg (fun hc => h ((special_char_iff c).mpr hc))]
  rw [funext hfun]

/-- Counterexample to C9: with the chained map
`{hello: "bark", bark: "woof"}` the forward pass sends the all-lowercase
sentence `"hello"` (a recognised casing pattern) to `"woof"`, and the
reverse pass sends that back to `"bark"`, which does not match `"hello"`
even up to case. -/
theorem round_trip_fails_on_chained_map :
    lowerEq
      (translateSentence ⟨"english", ⟨[("hello", "bark"), ("bark", "woof")], none⟩⟩
        (translateSentence ⟨"english", ⟨[("hello", "bark"), ("bark", "woof")], none⟩⟩
          "hello" false)
        true)
      "hello" = false := by
  decide

/-- C9 amended: the forward-then-reverse round trip is not guaranteed for
every map (sequential rewriting lets a later entry consume an earlier
entry's output, as the chained counterexample shows); for maps whose
entries do not interact — here the single-pair map
`{words: {bark: "woof"}}` — the round trip restores the sentence exactly
(hence up to case) on each of the three recognised casing patterns. -/
theorem round_trip_single_pair_map :
    translateSentence ⟨"english", ⟨[("bark", "woof")], none⟩⟩
      (translateSentence ⟨"english", ⟨[("bark", "woof")], none⟩⟩ "Bark loudly" false)
      true = "Bark loudly" ∧
    translateSentence ⟨"english", ⟨[("bark", "woof")], none⟩⟩
      (translateSentence ⟨"english", ⟨[("bark", "woof")], none⟩⟩ "BARK LOUDLY" false)
      true = "BARK LOUDLY" ∧
    translateSentence ⟨"english", ⟨[("bark", "woof")], none⟩⟩
      (translateSentence ⟨"english", ⟨[("bark", "woof")], none⟩⟩ "bark loudly" false)
      true = "bark loudly" := by
  exact ⟨by decide, by decide, by decide⟩

end DoggoTranslator
